import Mathlib

/-!
Verification of the milkzmq image-stream distribution core.

This file is a shallow embedding, in Lean 4, of the parts of the milkzmq
repository (src/milkzmqServer.hpp, src/milkzmqClient.hpp, src/milkzmqUtils.hpp)
that the checked claims are about:

* the fixed 256-byte wire-frame header written by
  `milkzmqServer::imageThreadExec` and read by `milkzmqClient::imageThreadExec`;
* the requestor (demand) table `m_requestorMap` with its per-dispatch lookup
  and per-subscriber clear/erase;
* one iteration of the publisher's Streaming loop, including the fps
  admission check and the integrator update;
* the subscriber's inner receive loop, its undersized-message handling, and
  its local-sink management;
* the pull-protocol request/response discipline, as a small labelled
  transition system.

Machine integers are modelled as `Nat` (unsigned) and `Int` (signed) with the
relevant modular reductions made explicit; `double` time values are modelled
as exact rationals.
-/

/-! ## Byte-level primitives -/

/-- Little-endian byte list of width `w` for the value `v`:
byte `i` is `v / 256 ^ i % 256`.  This models a `w`-byte store of an
unsigned integer on a little-endian machine. -/
def leBytes : Nat → Nat → List Nat
  | 0, _ => []
  | w + 1, v => (v % 256) :: leBytes w (v / 256)

/-- Read `w` bytes little-endian from `buf` starting at `off`
(missing bytes read as 0).  This models a `w`-byte unsigned load. -/
def readLE (buf : List Nat) (off : Nat) : Nat → Nat
  | 0 => 0
  | w + 1 => buf.getD off 0 + 256 * readLE buf (off + 1) w

theorem leBytes_length (w v : Nat) : (leBytes w v).length = w := by
  induction w generalizing v with
  | zero => rfl
  | succ w ih => simp [leBytes, ih]

theorem readLE_cons (x : Nat) (l : List Nat) (off w : Nat) :
    readLE (x :: l) (off + 1) w = readLE l off w := by
  induction w generalizing off with
  | zero => rfl
  | succ w ih => simp [readLE, ih, List.getD_cons_succ]

theorem readLE_append (a b : List Nat) (w : Nat) :
    readLE (a ++ b) a.length w = readLE b 0 w := by
  induction a with
  | nil => rfl
  | cons x a ih =>
    have : (x :: a).length = a.length + 1 := rfl
    rw [this, List.cons_append, readLE_cons, ih]

theorem readLE_leBytes (w v : Nat) (rest : List Nat) (hv : v < 256 ^ w) :
    readLE (leBytes w v ++ rest) 0 w = v := by
  induction w generalizing v rest with
  | zero => simp at hv; simp [readLE, hv]
  | succ w ih =>
    have hlt : v / 256 < 256 ^ w := by
      rw [Nat.div_lt_iff_lt_mul (by norm_num)]
      calc v < 256 ^ (w + 1) := hv
        _ = 256 ^ w * 256 := by ring
    simp only [leBytes, List.cons_append, readLE, List.getD_cons_zero, readLE_cons]
    rw [ih (v / 256) rest hlt]
    omega

/-- Read a field of width `w` located right after the prefix `pre`. -/
theorem readLE_field (pre rest : List Nat) (w v : Nat) (hv : v < 256 ^ w) :
    readLE (pre ++ (leBytes w v ++ rest)) pre.length w = v := by
  rw [readLE_append, readLE_leBytes w v rest hv]

theorem getD_append_len (a b : List Nat) (d : Nat) :
    (a ++ b).getD a.length d = b.getD 0 d := by
  induction a with
  | nil => rfl
  | cons x a ih =>
    rw [List.cons_append]
    show (a ++ b).getD a.length d = b.getD 0 d
    exact ih

theorem take_append_len (a b : List Nat) : (a ++ b).take a.length = a := by
  induction a with
  | nil => rfl
  | cons x a ih => simp [List.take_succ_cons, ih]

theorem drop_append_len (a b : List Nat) : (a ++ b).drop a.length = b := by
  induction a with
  | nil => rfl
  | cons x a ih =>
    rw [List.cons_append]
    show (a ++ b).drop a.length = b
    exact ih

/-- The two-byte two's-complement image of a signed 16-bit value, as written
by a `int16_t` store. -/
def int16ToNat (v : Int) : Nat := (v % 65536).toNat

/-- Read a signed 16-bit little-endian value at `off`, as done by a
`int16_t` load. -/
def readInt16 (buf : List Nat) (off : Nat) : Int :=
  let u := readLE buf off 2
  if u < 32768 then (u : Int) else (u : Int) - 65536

theorem int16ToNat_lt (v : Int) : int16ToNat v < 65536 := by
  have h1 : v % 65536 < 65536 := Int.emod_lt_of_pos v (by norm_num)
  have h2 : 0 ≤ v % 65536 := Int.emod_nonneg v (by norm_num)
  unfold int16ToNat
  omega

theorem readInt16_field (pre rest : List Nat) (v : Int)
    (hlo : -32768 ≤ v) (hhi : v < 32768) :
    readInt16 (pre ++ (leBytes 2 (int16ToNat v) ++ rest)) pre.length = v := by
  have hb : int16ToNat v < 256 ^ 2 := by
    have := int16ToNat_lt v
    norm_num
    omega
  have hread := readLE_field pre rest 2 (int16ToNat v) hb
  unfold readInt16
  rw [hread]
  rcases le_or_lt 0 v with hpos | hneg
  · have hv : v % 65536 = v := Int.emod_eq_of_lt hpos (by omega)
    unfold int16ToNat
    rw [hv]
    simp only []
    split <;> omega
  · have he : v % 65536 = v + 65536 := by
      have h1 : (v + 65536) % 65536 = v % 65536 := by
        have := Int.add_mul_emod_self_left (a := v) (b := 65536) (c := 1)
        simp at this
        omega
      have h2 : (v + 65536) % 65536 = v + 65536 :=
        Int.emod_eq_of_lt (by omega) (by omega)
      omega
    unfold int16ToNat
    rw [he]
    simp only []
    split <;> omega

/-! ## Wire-format offsets

The first block comes from `src/milkzmqUtils.hpp` (`typeOffset` through
`tv_nsecOffset`). -/

def typeOffset : Nat := 128

def size0Offset : Nat := typeOffset + 1

def size1Offset : Nat := size0Offset + 4

def cnt0Offset : Nat := size1Offset + 4

def tv_secOffset : Nat := cnt0Offset + 8

def tv_nsecOffset : Nat := tv_secOffset + 8

/-- Modelled from the spec: the size of the fixed-width, null-padded name
field ("name: 128 bytes, padded").  The constant `nameSize` is used by
`milkzmqServer::imageThreadExec` but its definition (the current
`milkzmqUtils.hpp`) is not under src/; the copy under src/ is an older
revision without it. -/
def nameSize : Nat := 128

/-- Modelled from the spec: offset of the signed 16-bit xrif difference-method
selector, directly after the timestamp fields ("[differenceMethod: 2 bytes
signed]" following "[timestampNsec: 8 bytes]").  Used by both
`imageThreadExec` functions; its definition is not under src/. -/
def xrifDifferenceOffset : Nat := tv_nsecOffset + 8

/-- Modelled from the spec: offset of the signed 16-bit reorder-method
selector. -/
def xrifReorderOffset : Nat := xrifDifferenceOffset + 2

/-- Modelled from the spec: offset of the signed 16-bit compress-method
selector. -/
def xrifCompressOffset : Nat := xrifReorderOffset + 2

/-- Modelled from the spec: offset of the unsigned 32-bit payload byte count
("[payloadLength: 4 bytes]"). -/
def xrifSizeOffset : Nat := xrifCompressOffset + 2

/-- Modelled from the spec: the fixed header size ("256-byte header"),
used by `milkzmqServer::imageThreadExec` (message allocation and send size)
and `milkzmqClient::imageThreadExec` (undersized-message check); its
definition is not under src/. -/
def headerSize : Nat := 256

/-- Modelled from the spec: the payload starts right after the fixed header
("followed by payloadLength bytes of encoded pixel data"). -/
def imageOffset : Nat := headerSize

/-! ## C10: client accessors -/

/-- One entry of `milkzmqClient::m_imageThreads`: the remote stream name and
the local stream name recorded by `milkzmqClient::shMemImName`. -/
structure ClientImThread where
  imageName : String
  localImageName : String
deriving DecidableEq

instance : Inhabited ClientImThread := ⟨⟨"", ""⟩⟩

/-- `milkzmqClient::shMemImName(size_t imno)`: returns "" when `imno` is out
of range, otherwise the stored remote name. -/
def clientShMemImName (threads : List ClientImThread) (imno : Nat) : String :=
  if imno ≥ threads.length then "" else (threads.getD imno default).imageName

/-- `milkzmqClient::localShMemImName(size_t imno)`: returns "" when `imno` is
out of range, otherwise the stored local name. -/
def clientLocalShMemImName (threads : List ClientImThread) (imno : Nat) : String :=
  if imno ≥ threads.length then "" else (threads.getD imno default).localImageName

/-- `milkzmqClient::shMemImName(name, localName)`: appends a new entry to
`m_imageThreads`. -/
def clientAddShMemImName (threads : List ClientImThread) (name localName : String) :
    List ClientImThread :=
  threads ++ [⟨name, localName⟩]

/-- C10: for every index at or past the end of the registered stream list,
both accessors return the empty string (out-of-range access is total), and
being pure reads they leave the registered stream list unchanged. -/
theorem claim_C10_accessors_total (threads : List ClientImThread) (imno : Nat)
    (h : imno ≥ threads.length) :
    clientShMemImName threads imno = "" ∧
    clientLocalShMemImName threads imno = "" := by
  constructor
  · unfold clientShMemImName
    rw [if_pos h]
  · unfold clientLocalShMemImName
    rw [if_pos h]

/-- Witness for C10 at a concrete one-element registry and index 1. -/
theorem claim_C10_accessors_total_witness :
    (1 : Nat) ≥ (clientAddShMemImName [] "image00" "local00").length ∧
    (clientShMemImName (clientAddShMemImName [] "image00" "local00") 1 = "" ∧
     clientLocalShMemImName (clientAddShMemImName [] "image00" "local00") 1 = "") :=
  ⟨by decide, claim_C10_accessors_total (clientAddShMemImName [] "image00" "local00") 1
    (by decide)⟩

/-! ## Frame header codec

`FrameHeader` collects the values that `milkzmqServer::imageThreadExec`
writes into the fixed 256-byte header (lines 836-847): the stream name, the
ImageStreamIO descriptor fields, the three xrif method selectors and the
compressed payload size. -/

structure FrameHeader where
  name : List Nat
  atype : Nat
  snx : Nat
  sny : Nat
  cnt0 : Nat
  tvSec : Nat
  tvNsec : Nat
  differenceMethod : Int
  reorderMethod : Int
  compressMethod : Int
  compressedSize : Nat

/-- The 128-byte name field: `snprintf((char *) msg, nameSize, "%s", ...)`
into a zeroed buffer writes at most `nameSize - 1` name bytes followed by a
null terminator, and the remainder of the field stays zero from the
preceding `memset`. -/
def nameField (name : List Nat) : List Nat :=
  name.take (nameSize - 1) ++
    List.replicate (nameSize - (name.take (nameSize - 1)).length) 0

theorem nameField_length (name : List Nat) : (nameField name).length = nameSize := by
  unfold nameField
  have h : (name.take (nameSize - 1)).length ≤ nameSize - 1 := by
    simp [List.length_take]
  simp only [List.length_append, List.length_replicate]
  omega

/-- The header bytes built by `milkzmqServer::imageThreadExec` lines 836-847:
`memset` to zero, the null-terminated name, then each field stored at its
offset (the stores are contiguous, so the header is the concatenation of the
fields with zero padding up to `headerSize`). -/
def encodeHeader (h : FrameHeader) : List Nat :=
  nameField h.name ++
  [h.atype] ++
  leBytes 4 h.snx ++
  leBytes 4 h.sny ++
  leBytes 8 h.cnt0 ++
  leBytes 8 h.tvSec ++
  leBytes 8 h.tvNsec ++
  leBytes 2 (int16ToNat h.differenceMethod) ++
  leBytes 2 (int16ToNat h.reorderMethod) ++
  leBytes 2 (int16ToNat h.compressMethod) ++
  leBytes 4 h.compressedSize ++
  List.replicate (headerSize - (xrifSizeOffset + 4)) 0

/-- The header fields read by `milkzmqClient::imageThreadExec`
(lines 503-546): each field loaded from its offset. -/
structure DecodedFields where
  atype : Nat
  snx : Nat
  sny : Nat
  cnt0 : Nat
  tvSec : Nat
  tvNsec : Nat
  differenceMethod : Int
  reorderMethod : Int
  compressMethod : Int
  compressedSize : Nat

def decodeHeader (buf : List Nat) : DecodedFields where
  atype := buf.getD typeOffset 0
  snx := readLE buf size0Offset 4
  sny := readLE buf size1Offset 4
  cnt0 := readLE buf cnt0Offset 8
  tvSec := readLE buf tv_secOffset 8
  tvNsec := readLE buf tv_nsecOffset 8
  differenceMethod := readInt16 buf xrifDifferenceOffset
  reorderMethod := readInt16 buf xrifReorderOffset
  compressMethod := readInt16 buf xrifCompressOffset
  compressedSize := readLE buf xrifSizeOffset 4

/-- Modelled from the spec: reading the stream name from the header as a C
string ("decode must treat any embedded null as end-of-string").  The client
under src/ never reads the name field back, so this decode step has no source
counterpart. -/
def readName (buf : List Nat) : List Nat :=
  (buf.take nameSize).takeWhile (fun b => b != 0)


theorem encode_field_snx (h : FrameHeader) (p : List Nat) (hv : h.snx < 2 ^ 32) :
    readLE (encodeHeader h ++ p) size0Offset 4 = h.snx := by
  have hb : h.snx < 256 ^ 4 := by norm_num at hv ⊢; exact hv
  have e : encodeHeader h ++ p =
      (nameField h.name ++ [h.atype]) ++
      (leBytes 4 h.snx ++
       (leBytes 4 h.sny ++ leBytes 8 h.cnt0 ++ leBytes 8 h.tvSec ++ leBytes 8 h.tvNsec ++ leBytes 2 (int16ToNat h.differenceMethod) ++ leBytes 2 (int16ToNat h.reorderMethod) ++ leBytes 2 (int16ToNat h.compressMethod) ++ leBytes 4 h.compressedSize ++ List.replicate (headerSize - (xrifSizeOffset + 4)) 0 ++ p)) := by
    simp [encodeHeader, List.append_assoc]
  have hl : (nameField h.name ++ [h.atype]).length = size0Offset := by
    simp [nameField_length, leBytes_length, typeOffset, size0Offset, size1Offset, cnt0Offset, tv_secOffset, tv_nsecOffset, xrifDifferenceOffset, xrifReorderOffset, xrifCompressOffset, xrifSizeOffset, nameSize, headerSize, imageOffset, List.length_replicate]
  rw [e, ← hl]
  exact readLE_field _ _ 4 _ hb


theorem encode_field_sny (h : FrameHeader) (p : List Nat) (hv : h.sny < 2 ^ 32) :
    readLE (encodeHeader h ++ p) size1Offset 4 = h.sny := by
  have hb : h.sny < 256 ^ 4 := by norm_num at hv ⊢; exact hv
  have e : encodeHeader h ++ p =
      (nameField h.name ++ [h.atype] ++ leBytes 4 h.snx) ++
      (leBytes 4 h.sny ++
       (leBytes 8 h.cnt0 ++ leBytes 8 h.tvSec ++ leBytes 8 h.tvNsec ++ leBytes 2 (int16ToNat h.differenceMethod) ++ leBytes 2 (int16ToNat h.reorderMethod) ++ leBytes 2 (int16ToNat h.compressMethod) ++ leBytes 4 h.compressedSize ++ List.replicate (headerSize - (xrifSizeOffset + 4)) 0 ++ p)) := by
    simp [encodeHeader, List.append_assoc]
  have hl : (nameField h.name ++ [h.atype] ++ leBytes 4 h.snx).length = size1Offset := by
    simp [nameField_length, leBytes_length, typeOffset, size0Offset, size1Offset, cnt0Offset, tv_secOffset, tv_nsecOffset, xrifDifferenceOffset, xrifReorderOffset, xrifCompressOffset, xrifSizeOffset, nameSize, headerSize, imageOffset, List.length_replicate]
  rw [e, ← hl]
  exact readLE_field _ _ 4 _ hb


theorem encode_field_cnt0 (h : FrameHeader) (p : List Nat) (hv : h.cnt0 < 2 ^ 64) :
    readLE (encodeHeader h ++ p) cnt0Offset 8 = h.cnt0 := by
  have hb : h.cnt0 < 256 ^ 8 := by norm_num at hv ⊢; exact hv
  have e : encodeHeader h ++ p =
      (nameField h.name ++ [h.atype] ++ leBytes 4 h.snx ++ leBytes 4 h.sny) ++
      (leBytes 8 h.cnt0 ++
       (leBytes 8 h.tvSec ++ leBytes 8 h.tvNsec ++ leBytes 2 (int16ToNat h.differenceMethod) ++ leBytes 2 (int16ToNat h.reorderMethod) ++ leBytes 2 (int16ToNat h.compressMethod) ++ leBytes 4 h.compressedSize ++ List.replicate (headerSize - (xrifSizeOffset + 4)) 0 ++ p)) := by
    simp [encodeHeader, List.append_assoc]
  have hl : (nameField h.name ++ [h.atype] ++ leBytes 4 h.snx ++ leBytes 4 h.sny).length = cnt0Offset := by
    simp [nameField_length, leBytes_length, typeOffset, size0Offset, size1Offset, cnt0Offset, tv_secOffset, tv_nsecOffset, xrifDifferenceOffset, xrifReorderOffset, xrifCompressOffset, xrifSizeOffset, nameSize, headerSize, imageOffset, List.length_replicate]
  rw [e, ← hl]
  exact readLE_field _ _ 8 _ hb


theorem encode_field_tvSec (h : FrameHeader) (p : List Nat) (hv : h.tvSec < 2 ^ 64) :
    readLE (encodeHeader h ++ p) tv_secOffset 8 = h.tvSec := by
  have hb : h.tvSec < 256 ^ 8 := by norm_num at hv ⊢; exact hv
  have e : encodeHeader h ++ p =
      (nameField h.name ++ [h.atype] ++ leBytes 4 h.snx ++ leBytes 4 h.sny ++ leBytes 8 h.cnt0) ++
      (leBytes 8 h.tvSec ++
       (leBytes 8 h.tvNsec ++ leBytes 2 (int16ToNat h.differenceMethod) ++ leBytes 2 (int16ToNat h.reorderMethod) ++ leBytes 2 (int16ToNat h.compressMethod) ++ leBytes 4 h.compressedSize ++ List.replicate (headerSize - (xrifSizeOffset + 4)) 0 ++ p)) := by
    simp [encodeHeader, List.append_assoc]
  have hl : (nameField h.name ++ [h.atype] ++ leBytes 4 h.snx ++ leBytes 4 h.sny ++ leBytes 8 h.cnt0).length = tv_secOffset := by
    simp [nameField_length, leBytes_length, typeOffset, size0Offset, size1Offset, cnt0Offset, tv_secOffset, tv_nsecOffset, xrifDifferenceOffset, xrifReorderOffset, xrifCompressOffset, xrifSizeOffset, nameSize, headerSize, imageOffset, List.length_replicate]
  rw [e, ← hl]
  exact readLE_field _ _ 8 _ hb


theorem encode_field_tvNsec (h : FrameHeader) (p : List Nat) (hv : h.tvNsec < 2 ^ 64) :
    readLE (encodeHeader h ++ p) tv_nsecOffset 8 = h.tvNsec := by
  have hb : h.tvNsec < 256 ^ 8 := by norm_num at hv ⊢; exact hv
  have e : encodeHeader h ++ p =
      (nameField h.name ++ [h.atype] ++ leBytes 4 h.snx ++ leBytes 4 h.sny ++ leBytes 8 h.cnt0 ++ leBytes 8 h.tvSec) ++
      (leBytes 8 h.tvNsec ++
       (leBytes 2 (int16ToNat h.differenceMethod) ++ leBytes 2 (int16ToNat h.reorderMethod) ++ leBytes 2 (int16ToNat h.compressMethod) ++ leBytes 4 h.compressedSize ++ List.replicate (headerSize - (xrifSizeOffset + 4)) 0 ++ p)) := by
    simp [encodeHeader, List.append_assoc]
  have hl : (nameField h.name ++ [h.atype] ++ leBytes 4 h.snx ++ leBytes 4 h.sny ++ leBytes 8 h.cnt0 ++ leBytes 8 h.tvSec).length = tv_nsecOffset := by
    simp [nameField_length, leBytes_length, typeOffset, size0Offset, size1Offset, cnt0Offset, tv_secOffset, tv_nsecOffset, xrifDifferenceOffset, xrifReorderOffset, xrifCompressOffset, xrifSizeOffset, nameSize, headerSize, imageOffset, List.length_replicate]
  rw [e, ← hl]
  exact readLE_field _ _ 8 _ hb


theorem encode_field_compressedSize (h : FrameHeader) (p : List Nat) (hv : h.compressedSize < 2 ^ 32) :
    readLE (encodeHeader h ++ p) xrifSizeOffset 4 = h.compressedSize := by
  have hb : h.compressedSize < 256 ^ 4 := by norm_num at hv ⊢; exact hv
  have e : encodeHeader h ++ p =
      (nameField h.name ++ [h.atype] ++ leBytes 4 h.snx ++ leBytes 4 h.sny ++ leBytes 8 h.cnt0 ++ leBytes 8 h.tvSec ++ leBytes 8 h.tvNsec ++ leBytes 2 (int16ToNat h.differenceMethod) ++ leBytes 2 (int16ToNat h.reorderMethod) ++ leBytes 2 (int16ToNat h.compressMethod)) ++
      (leBytes 4 h.compressedSize ++
       (List.replicate (headerSize - (xrifSizeOffset + 4)) 0 ++ p)) := by
    simp [encodeHeader, List.append_assoc]
  have hl : (nameField h.name ++ [h.atype] ++ leBytes 4 h.snx ++ leBytes 4 h.sny ++ leBytes 8 h.cnt0 ++ leBytes 8 h.tvSec ++ leBytes 8 h.tvNsec ++ leBytes 2 (int16ToNat h.differenceMethod) ++ leBytes 2 (int16ToNat h.reorderMethod) ++ leBytes 2 (int16ToNat h.compressMethod)).length = xrifSizeOffset := by
    simp [nameField_length, leBytes_length, typeOffset, size0Offset, size1Offset, cnt0Offset, tv_secOffset, tv_nsecOffset, xrifDifferenceOffset, xrifReorderOffset, xrifCompressOffset, xrifSizeOffset, nameSize, headerSize, imageOffset, List.length_replicate]
  rw [e, ← hl]
  exact readLE_field _ _ 4 _ hb


theorem encode_field_differenceMethod (h : FrameHeader) (p : List Nat)
    (hlo : -32768 ≤ h.differenceMethod) (hhi : h.differenceMethod < 32768) :
    readInt16 (encodeHeader h ++ p) xrifDifferenceOffset = h.differenceMethod := by
  have e : encodeHeader h ++ p =
      (nameField h.name ++ [h.atype] ++ leBytes 4 h.snx ++ leBytes 4 h.sny ++ leBytes 8 h.cnt0 ++ leBytes 8 h.tvSec ++ leBytes 8 h.tvNsec) ++
      (leBytes 2 (int16ToNat h.differenceMethod) ++
       (leBytes 2 (int16ToNat h.reorderMethod) ++ leBytes 2 (int16ToNat h.compressMethod) ++ leBytes 4 h.compressedSize ++ List.replicate (headerSize - (xrifSizeOffset + 4)) 0 ++ p)) := by
    simp [encodeHeader, List.append_assoc]
  have hl : (nameField h.name ++ [h.atype] ++ leBytes 4 h.snx ++ leBytes 4 h.sny ++ leBytes 8 h.cnt0 ++ leBytes 8 h.tvSec ++ leBytes 8 h.tvNsec).length = xrifDifferenceOffset := by
    simp [nameField_length, leBytes_length, typeOffset, size0Offset, size1Offset, cnt0Offset, tv_secOffset, tv_nsecOffset, xrifDifferenceOffset, xrifReorderOffset, xrifCompressOffset, xrifSizeOffset, nameSize, headerSize, imageOffset, List.length_replicate]
  rw [e, ← hl]
  exact readInt16_field _ _ _ hlo hhi


theorem encode_field_reorderMethod (h : FrameHeader) (p : List Nat)
    (hlo : -32768 ≤ h.reorderMethod) (hhi : h.reorderMethod < 32768) :
    readInt16 (encodeHeader h ++ p) xrifReorderOffset = h.reorderMethod := by
  have e : encodeHeader h ++ p =
      (nameField h.name ++ [h.atype] ++ leBytes 4 h.snx ++ leBytes 4 h.sny ++ leBytes 8 h.cnt0 ++ leBytes 8 h.tvSec ++ leBytes 8 h.tvNsec ++ leBytes 2 (int16ToNat h.differenceMethod)) ++
      (leBytes 2 (int16ToNat h.reorderMethod) ++
       (leBytes 2 (int16ToNat h.compressMethod) ++ leBytes 4 h.compressedSize ++ List.replicate (headerSize - (xrifSizeOffset + 4)) 0 ++ p)) := by
    simp [encodeHeader, List.append_assoc]
  have hl : (nameField h.name ++ [h.atype] ++ leBytes 4 h.snx ++ leBytes 4 h.sny ++ leBytes 8 h.cnt0 ++ leBytes 8 h.tvSec ++ leBytes 8 h.tvNsec ++ leBytes 2 (int16ToNat h.differenceMethod)).length = xrifReorderOffset := by
    simp [nameField_length, leBytes_length, typeOffset, size0Offset, size1Offset, cnt0Offset, tv_secOffset, tv_nsecOffset, xrifDifferenceOffset, xrifReorderOffset, xrifCompressOffset, xrifSizeOffset, nameSize, headerSize, imageOffset, List.length_replicate]
  rw [e, ← hl]
  exact readInt16_field _ _ _ hlo hhi


theorem encode_field_compressMethod (h : FrameHeader) (p : List Nat)
    (hlo : -32768 ≤ h.compressMethod) (hhi : h.compressMethod < 32768) :
    readInt16 (encodeHeader h ++ p) xrifCompressOffset = h.compressMethod := by
  have e : encodeHeader h ++ p =
      (nameField h.name ++ [h.atype] ++ leBytes 4 h.snx ++ leBytes 4 h.sny ++ leBytes 8 h.cnt0 ++ leBytes 8 h.tvSec ++ leBytes 8 h.tvNsec ++ leBytes 2 (int16ToNat h.differenceMethod) ++ leBytes 2 (int16ToNat h.reorderMethod)) ++
      (leBytes 2 (int16ToNat h.compressMethod) ++
       (leBytes 4 h.compressedSize ++ List.replicate (headerSize - (xrifSizeOffset + 4)) 0 ++ p)) := by
    simp [encodeHeader, List.append_assoc]
  have hl : (nameField h.name ++ [h.atype] ++ leBytes 4 h.snx ++ leBytes 4 h.sny ++ leBytes 8 h.cnt0 ++ leBytes 8 h.tvSec ++ leBytes 8 h.tvNsec ++ leBytes 2 (int16ToNat h.differenceMethod) ++ leBytes 2 (int16ToNat h.reorderMethod)).length = xrifCompressOffset := by
    simp [nameField_length, leBytes_length, typeOffset, size0Offset, size1Offset, cnt0Offset, tv_secOffset, tv_nsecOffset, xrifDifferenceOffset, xrifReorderOffset, xrifCompressOffset, xrifSizeOffset, nameSize, headerSize, imageOffset, List.length_replicate]
  rw [e, ← hl]
  exact readInt16_field _ _ _ hlo hhi


theorem encode_field_atype (h : FrameHeader) (p : List Nat) :
    (encodeHeader h ++ p).getD typeOffset 0 = h.atype := by
  have e : encodeHeader h ++ p =
      nameField h.name ++
      (h.atype ::
       (leBytes 4 h.snx ++ leBytes 4 h.sny ++ leBytes 8 h.cnt0 ++ leBytes 8 h.tvSec ++ leBytes 8 h.tvNsec ++ leBytes 2 (int16ToNat h.differenceMethod) ++ leBytes 2 (int16ToNat h.reorderMethod) ++ leBytes 2 (int16ToNat h.compressMethod) ++ leBytes 4 h.compressedSize ++ List.replicate (headerSize - (xrifSizeOffset + 4)) 0 ++ p)) := by
    simp [encodeHeader, List.append_assoc]
  have hl : (nameField h.name).length = typeOffset := by
    simp [nameField_length, nameSize, typeOffset]
  rw [e, ← hl, getD_append_len]
  rfl

theorem encode_take_name (h : FrameHeader) (p : List Nat) :
    (encodeHeader h ++ p).take nameSize = nameField h.name := by
  have e : encodeHeader h ++ p =
      nameField h.name ++
      ([h.atype] ++ leBytes 4 h.snx ++ leBytes 4 h.sny ++ leBytes 8 h.cnt0 ++ leBytes 8 h.tvSec ++ leBytes 8 h.tvNsec ++ leBytes 2 (int16ToNat h.differenceMethod) ++ leBytes 2 (int16ToNat h.reorderMethod) ++ leBytes 2 (int16ToNat h.compressMethod) ++ leBytes 4 h.compressedSize ++ List.replicate (headerSize - (xrifSizeOffset + 4)) 0 ++ p) := by
    simp [encodeHeader, List.append_assoc]
  rw [e, ← nameField_length h.name, take_append_len]

theorem encodeHeader_length (h : FrameHeader) : (encodeHeader h).length = headerSize := by
  simp [encodeHeader, nameField_length, leBytes_length, typeOffset, size0Offset, size1Offset, cnt0Offset, tv_secOffset, tv_nsecOffset, xrifDifferenceOffset, xrifReorderOffset, xrifCompressOffset, xrifSizeOffset, nameSize, headerSize, imageOffset, List.length_replicate]

theorem takeWhile_append_zero (t rest : List Nat) (h : ∀ b ∈ t, b ≠ 0) :
    (t ++ 0 :: rest).takeWhile (fun b => b != 0) = t := by
  induction t with
  | nil => simp
  | cons x t ih =>
    have hx : (x != 0) = true := by
      have := h x (List.mem_cons_self x t)
      simpa using this
    simp only [List.cons_append, List.takeWhile_cons, hx, if_true]
    rw [ih (fun b hb => h b (List.mem_cons_of_mem x hb))]

theorem nameField_eq_padded (name : List Nat) (hlen : name.length < nameSize) :
    nameField name = name ++ List.replicate (nameSize - name.length) 0 := by
  unfold nameField
  rw [List.take_of_length_le (by omega)]

theorem readName_encode (h : FrameHeader) (p : List Nat)
    (hlen : h.name.length < nameSize) (hnz : ∀ b ∈ h.name, b ≠ 0) :
    readName (encodeHeader h ++ p) = h.name := by
  unfold readName
  rw [encode_take_name, nameField_eq_padded h.name hlen]
  have hk : nameSize - h.name.length = (nameSize - h.name.length - 1) + 1 := by
    unfold nameSize at hlen ⊢
    omega
  rw [hk, List.replicate_succ]
  exact takeWhile_append_zero _ _ hnz

/-! ## Claims C1 and C7 -/

/-- C1: for every stream descriptor whose name fits in the 128-byte name
field (so its bytes plus a terminator fit: length at most 127, no embedded
nulls), every codec-parameter triple in signed 16-bit range and every payload
length, decoding the header bytes produced by the publisher's encoder yields
exactly the encoded descriptor fields, codec parameters and payload length;
the name field is null-padded on encode and the (spec-modelled) name decode
stops at the first null. -/
theorem claim_C1_header_roundtrip (h : FrameHeader) (payload : List Nat)
    (hname : h.name.length < nameSize)
    (hnz : ∀ b ∈ h.name, b ≠ 0)
    (hsnx : h.snx < 2 ^ 32) (hsny : h.sny < 2 ^ 32)
    (hcnt : h.cnt0 < 2 ^ 64) (hsec : h.tvSec < 2 ^ 64) (hnsec : h.tvNsec < 2 ^ 64)
    (hd1 : -32768 ≤ h.differenceMethod) (hd2 : h.differenceMethod < 32768)
    (hr1 : -32768 ≤ h.reorderMethod) (hr2 : h.reorderMethod < 32768)
    (hc1 : -32768 ≤ h.compressMethod) (hc2 : h.compressMethod < 32768)
    (hsz : h.compressedSize < 2 ^ 32) :
    readName (encodeHeader h ++ payload) = h.name ∧
    (decodeHeader (encodeHeader h ++ payload)).atype = h.atype ∧
    (decodeHeader (encodeHeader h ++ payload)).snx = h.snx ∧
    (decodeHeader (encodeHeader h ++ payload)).sny = h.sny ∧
    (decodeHeader (encodeHeader h ++ payload)).cnt0 = h.cnt0 ∧
    (decodeHeader (encodeHeader h ++ payload)).tvSec = h.tvSec ∧
    (decodeHeader (encodeHeader h ++ payload)).tvNsec = h.tvNsec ∧
    (decodeHeader (encodeHeader h ++ payload)).differenceMethod = h.differenceMethod ∧
    (decodeHeader (encodeHeader h ++ payload)).reorderMethod = h.reorderMethod ∧
    (decodeHeader (encodeHeader h ++ payload)).compressMethod = h.compressMethod ∧
    (decodeHeader (encodeHeader h ++ payload)).compressedSize = h.compressedSize ∧
    (encodeHeader h ++ payload).take nameSize =
      h.name ++ List.replicate (nameSize - h.name.length) 0 := by
  simp only [decodeHeader]
  refine ⟨readName_encode h payload hname hnz, ?_, ?_, ?_, ?_, ?_, ?_, ?_, ?_, ?_, ?_, ?_⟩
  · exact encode_field_atype h payload
  · exact encode_field_snx h payload hsnx
  · exact encode_field_sny h payload hsny
  · exact encode_field_cnt0 h payload hcnt
  · exact encode_field_tvSec h payload hsec
  · exact encode_field_tvNsec h payload hnsec
  · exact encode_field_differenceMethod h payload hd1 hd2
  · exact encode_field_reorderMethod h payload hr1 hr2
  · exact encode_field_compressMethod h payload hc1 hc2
  · exact encode_field_compressedSize h payload hsz
  · rw [encode_take_name, nameField_eq_padded h.name hname]

/-- A concrete header (name "cam0", 4 by 3 uint8 frame, methods 0/1/0,
payload length 5) used to witness C1. -/
def exampleHeaderA : FrameHeader :=
  ⟨[99, 97, 109, 48], 1, 4, 3, 7, 1000, 500, 0, 1, 0, 5⟩

/-- Witness for C1 at `exampleHeaderA` with a 5-byte payload. -/
theorem claim_C1_header_roundtrip_witness :
    (exampleHeaderA.name.length < nameSize ∧ (∀ b ∈ exampleHeaderA.name, b ≠ 0) ∧
     exampleHeaderA.snx < 2 ^ 32) ∧
    readName (encodeHeader exampleHeaderA ++ [7, 8, 9, 10, 11]) = exampleHeaderA.name ∧
    (decodeHeader (encodeHeader exampleHeaderA ++ [7, 8, 9, 10, 11])).snx = exampleHeaderA.snx :=
  ⟨⟨by decide, by decide, by decide⟩,
   (claim_C1_header_roundtrip exampleHeaderA [7, 8, 9, 10, 11] (by decide) (by decide)
      (by decide) (by decide) (by decide) (by decide) (by decide) (by decide) (by decide)
      (by decide) (by decide) (by decide) (by decide) (by decide)).1,
   (claim_C1_header_roundtrip exampleHeaderA [7, 8, 9, 10, 11] (by decide) (by decide)
      (by decide) (by decide) (by decide) (by decide) (by decide) (by decide) (by decide)
      (by decide) (by decide) (by decide) (by decide) (by decide)).2.2.1⟩

/-- C7: the wire-frame header is exactly 256 bytes, with name at offset 0
(128 bytes, padded), elementType at 128 (1 byte), width at 129 (4 bytes),
height at 133 (4 bytes), frameCounter at 137 (8 bytes), timestampSec at 145,
timestampNsec at 153, then the three signed 16-bit method selectors at
161/163/165 and the unsigned 32-bit payloadLength at 167, followed by exactly
payloadLength bytes of payload starting at offset 256. -/
theorem claim_C7_wire_layout (h : FrameHeader) (payload : List Nat)
    (hsnx : h.snx < 2 ^ 32) (hsny : h.sny < 2 ^ 32)
    (hcnt : h.cnt0 < 2 ^ 64) (hsec : h.tvSec < 2 ^ 64) (hnsec : h.tvNsec < 2 ^ 64)
    (hd1 : -32768 ≤ h.differenceMethod) (hd2 : h.differenceMethod < 32768)
    (hr1 : -32768 ≤ h.reorderMethod) (hr2 : h.reorderMethod < 32768)
    (hc1 : -32768 ≤ h.compressMethod) (hc2 : h.compressMethod < 32768)
    (hsz : h.compressedSize < 2 ^ 32)
    (hp : payload.length = h.compressedSize) :
    (headerSize = 256 ∧ nameSize = 128 ∧ typeOffset = 128 ∧ size0Offset = 129 ∧
     size1Offset = 133 ∧ cnt0Offset = 137 ∧ tv_secOffset = 145 ∧ tv_nsecOffset = 153 ∧
     xrifDifferenceOffset = 161 ∧ xrifReorderOffset = 163 ∧ xrifCompressOffset = 165 ∧
     xrifSizeOffset = 167 ∧ imageOffset = 256) ∧
    (encodeHeader h).length = 256 ∧
    (encodeHeader h ++ payload).take 128 = nameField h.name ∧
    (encodeHeader h ++ payload).getD 128 0 = h.atype ∧
    readLE (encodeHeader h ++ payload) 129 4 = h.snx ∧
    readLE (encodeHeader h ++ payload) 133 4 = h.sny ∧
    readLE (encodeHeader h ++ payload) 137 8 = h.cnt0 ∧
    readLE (encodeHeader h ++ payload) 145 8 = h.tvSec ∧
    readLE (encodeHeader h ++ payload) 153 8 = h.tvNsec ∧
    readInt16 (encodeHeader h ++ payload) 161 = h.differenceMethod ∧
    readInt16 (encodeHeader h ++ payload) 163 = h.reorderMethod ∧
    readInt16 (encodeHeader h ++ payload) 165 = h.compressMethod ∧
    readLE (encodeHeader h ++ payload) 167 4 = h.compressedSize ∧
    (encodeHeader h ++ payload).length = 256 + h.compressedSize ∧
    (encodeHeader h ++ payload).drop 256 = payload := by
  have hlen : (encodeHeader h).length = 256 := encodeHeader_length h
  refine ⟨⟨rfl, rfl, rfl, rfl, rfl, rfl, rfl, rfl, rfl, rfl, rfl, rfl, rfl⟩,
    hlen, ?_, ?_, ?_, ?_, ?_, ?_, ?_, ?_, ?_, ?_, ?_, ?_, ?_⟩
  · exact encode_take_name h payload
  · exact encode_field_atype h payload
  · exact encode_field_snx h payload hsnx
  · exact encode_field_sny h payload hsny
  · exact encode_field_cnt0 h payload hcnt
  · exact encode_field_tvSec h payload hsec
  · exact encode_field_tvNsec h payload hnsec
  · exact encode_field_differenceMethod h payload hd1 hd2
  · exact encode_field_reorderMethod h payload hr1 hr2
  · exact encode_field_compressMethod h payload hc1 hc2
  · exact encode_field_compressedSize h payload hsz
  · rw [List.length_append, hlen, hp]
  · rw [← hlen]
    exact drop_append_len _ _

/-- A concrete header (name "s", 2 by 2 uint16 frame, methods 1/2/3,
payload length 4) used to witness C7. -/
def exampleHeaderB : FrameHeader :=
  ⟨[115], 3, 2, 2, 42, 77, 88, 1, 2, 3, 4⟩

/-- Witness for C7 at `exampleHeaderB` with a 4-byte payload. -/
theorem claim_C7_wire_layout_witness :
    (([1, 2, 3, 4] : List Nat).length = exampleHeaderB.compressedSize) ∧
    size0Offset = 129 ∧
    readLE (encodeHeader exampleHeaderB ++ [1, 2, 3, 4]) 129 4 = exampleHeaderB.snx ∧
    (encodeHeader exampleHeaderB ++ [1, 2, 3, 4]).drop 256 = [1, 2, 3, 4] :=
  ⟨by decide,
   (claim_C7_wire_layout exampleHeaderB [1, 2, 3, 4] (by decide) (by decide) (by decide)
      (by decide) (by decide) (by decide) (by decide) (by decide) (by decide) (by decide)
      (by decide) (by decide) (by decide)).1.2.2.2.1,
   (claim_C7_wire_layout exampleHeaderB [1, 2, 3, 4] (by decide) (by decide) (by decide)
      (by decide) (by decide) (by decide) (by decide) (by decide) (by decide) (by decide)
      (by decide) (by decide) (by decide)).2.2.2.2.1,
   (claim_C7_wire_layout exampleHeaderB [1, 2, 3, 4] (by decide) (by decide) (by decide)
      (by decide) (by decide) (by decide) (by decide) (by decide) (by decide) (by decide)
      (by decide) (by decide) (by decide)).2.2.2.2.2.2.2.2.2.2.2.2.2.2⟩

/-! ## Requestor (demand) table

`m_requestorMap : unordered_map<routing_id_t, unordered_map<string, bool>>`
is modelled as an association list with unique outer keys. -/

/-- `imageReceivedFlagMap_t`: stream name to armed flag. -/
abbrev FlagMap := List (String × Bool)

/-- `m_requestorMap`: routing id to per-stream armed flags. -/
abbrev RequestorMap := List (Nat × FlagMap)

/-- First binding of `name` in a flag map, if any (`count` plus `operator[]`
read). -/
def lookupFlag : FlagMap → String → Option Bool
  | [], _ => none
  | (k, v) :: rest, name => if k = name then some v else lookupFlag rest name

/-- First binding of `rid` in the requestor map, if any. -/
def lookupRid : RequestorMap → Nat → Option FlagMap
  | [], _ => none
  | (r, fm) :: rest, rid => if r = rid then some fm else lookupRid rest rid

/-- Whether subscriber `rid` currently has its armed flag set for `name`
(`m_requestorMap[rid][name] == true`). -/
def armed (m : RequestorMap) (rid : Nat) (name : String) : Bool :=
  ((lookupRid m rid).bind (fun fm => lookupFlag fm name)).getD false

/-- `fm[name] = b`: `operator[]` updates the existing binding or inserts a
new one. -/
def updateFlagMap : FlagMap → String → Bool → FlagMap
  | [], name, b => [(name, b)]
  | (k, v) :: rest, name, b =>
      if k = name then (k, b) :: rest else (k, v) :: updateFlagMap rest name b

/-- `m_requestorMap[rid][name] = b`: nested `operator[]` assignment. -/
def setFlag : RequestorMap → Nat → String → Bool → RequestorMap
  | [], rid, name, b => [(rid, [(name, b)])]
  | (r, fm) :: rest, rid, name, b =>
      if r = rid then (r, updateFlagMap fm name b) :: rest
      else (r, fm) :: setFlag rest rid name b

/-- `m_requestorMap.erase(rid)`: drop the subscriber's whole entry. -/
def eraseRid (m : RequestorMap) (rid : Nat) : RequestorMap :=
  m.filter (fun e => e.1 != rid)

/-- The demand lookup performed at the head of each dispatch cycle
(`milkzmqServer::imageThreadExec` lines 781-802): under the map mutex,
collect every routing id whose armed flag for `name` is true.  The loop
only reads the map; it does not modify any flag. -/
def pendingSubscribers (m : RequestorMap) (name : String) : List Nat :=
  (m.filter (fun e => (lookupFlag e.2 name).getD false)).map Prod.fst

/-- The per-subscriber send loop (lines 855-878): on a successful send clear
the armed flag (`m_requestorMap[rids[rid]][imageName] = false`); on a failed
send erase the subscriber's entire entry.  `ok rid` abstracts whether the
non-blocking send to `rid` succeeded. -/
def dispatchSends (m : RequestorMap) (name : String) (ok : Nat → Bool)
    (rids : List Nat) : RequestorMap :=
  rids.foldl
    (fun acc rid => if ok rid then setFlag acc rid name false else eraseRid acc rid) m

/-- The request router (`milkzmqServer::serverThreadExec` line 603):
`m_requestorMap[routing_id][reqShmim] = true`. -/
def markPending (m : RequestorMap) (rid : Nat) (name : String) : RequestorMap :=
  setFlag m rid name true

theorem mem_pendingSubscribers_keys (m : RequestorMap) (name : String) (rid : Nat)
    (h : rid ∈ pendingSubscribers m name) : rid ∈ m.map Prod.fst := by
  unfold pendingSubscribers at h
  rcases List.mem_map.mp h with ⟨e, he, rfl⟩
  exact List.mem_map_of_mem Prod.fst (List.mem_of_mem_filter he)

theorem armed_cons (r : Nat) (fm : FlagMap) (rest : RequestorMap) (rid : Nat)
    (name : String) :
    armed ((r, fm) :: rest) rid name =
      if r = rid then (lookupFlag fm name).getD false else armed rest rid name := by
  by_cases hid : r = rid
  · simp [armed, lookupRid, hid]
  · simp [armed, lookupRid, hid]

theorem pendingSubscribers_cons (r : Nat) (fm : FlagMap) (rest : RequestorMap)
    (name : String) :
    pendingSubscribers ((r, fm) :: rest) name =
      if (lookupFlag fm name).getD false then r :: pendingSubscribers rest name
      else pendingSubscribers rest name := by
  by_cases hfl : (lookupFlag fm name).getD false
  · simp [pendingSubscribers, List.filter_cons, hfl]
  · simp [pendingSubscribers, List.filter_cons, hfl]

theorem pending_iff_armed (m : RequestorMap) (name : String) (rid : Nat)
    (hnd : (m.map Prod.fst).Nodup) :
    rid ∈ pendingSubscribers m name ↔ armed m rid name = true := by
  induction m with
  | nil => simp [pendingSubscribers, armed, lookupRid]
  | cons e rest ih =>
    obtain ⟨r, fm⟩ := e
    simp only [List.map_cons, List.nodup_cons] at hnd
    obtain ⟨hr, hnd2⟩ := hnd
    rw [armed_cons, pendingSubscribers_cons]
    by_cases hid : r = rid
    · subst hid
      rw [if_pos rfl]
      by_cases hfl : (lookupFlag fm name).getD false = true
      · rw [if_pos hfl]
        simp [hfl]
      · rw [if_neg hfl]
        have hfl2 : (lookupFlag fm name).getD false = false := by
          revert hfl
          cases (lookupFlag fm name).getD false <;> simp
        rw [hfl2]
        simp only [Bool.false_eq_true, iff_false]
        intro hmem
        exact absurd (mem_pendingSubscribers_keys rest name r hmem) hr
    · rw [if_neg hid, ← ih hnd2]
      by_cases hfl : (lookupFlag fm name).getD false = true
      · rw [if_pos hfl]
        constructor
        · intro hmem
          rcases List.mem_cons.mp hmem with h1 | h2
          · exact absurd h1.symm hid
          · exact h2
        · exact List.mem_cons_of_mem r
      · rw [if_neg hfl]

theorem lookupFlag_updateFlagMap (fm : FlagMap) (name : String) (b : Bool) :
    lookupFlag (updateFlagMap fm name b) name = some b := by
  induction fm with
  | nil => simp [updateFlagMap, lookupFlag]
  | cons e rest ih =>
    obtain ⟨k, v⟩ := e
    by_cases hk : k = name
    · simp [updateFlagMap, lookupFlag, hk]
    · simp [updateFlagMap, lookupFlag, hk, ih]

theorem armed_setFlag_same (m : RequestorMap) (rid : Nat) (name : String) (b : Bool) :
    armed (setFlag m rid name b) rid name = b := by
  induction m with
  | nil => simp [setFlag, armed, lookupRid, lookupFlag]
  | cons e rest ih =>
    obtain ⟨r, fm⟩ := e
    by_cases hr : r = rid
    · simp [setFlag, hr, armed, lookupRid, lookupFlag_updateFlagMap]
    · simp only [setFlag, if_neg hr]
      unfold armed lookupRid
      rw [if_neg hr]
      exact ih

theorem armed_setFlag_other (m : RequestorMap) (rid rid2 : Nat) (name : String)
    (b : Bool) (hne : rid ≠ rid2) :
    armed (setFlag m rid2 name b) rid name = armed m rid name := by
  have h2 : ¬ (rid2 = rid) := fun h => hne h.symm
  induction m with
  | nil => simp [setFlag, armed, lookupRid, h2]
  | cons e rest ih =>
    obtain ⟨r, fm⟩ := e
    by_cases hr : r = rid2
    · have h3 : ¬ (r = rid) := by
        rw [hr]
        exact h2
      simp only [setFlag, if_pos hr]
      rw [armed_cons, armed_cons, if_neg h3, if_neg h3]
    · simp only [setFlag, if_neg hr]
      rw [armed_cons, armed_cons]
      by_cases hr2 : r = rid
      · rw [if_pos hr2, if_pos hr2]
      · rw [if_neg hr2, if_neg hr2]
        exact ih

theorem armed_clearAll_not_mem (name : String) (rs : List Nat) :
    ∀ (m : RequestorMap) (rid : Nat), rid ∉ rs →
    armed (rs.foldl (fun acc x => setFlag acc x name false) m) rid name =
      armed m rid name := by
  induction rs with
  | nil => intro m rid _; rfl
  | cons x rs ih =>
    intro m rid hmem
    have hx : rid ≠ x := fun h => hmem (h ▸ List.mem_cons_self x rs)
    have hrs : rid ∉ rs := fun h => hmem (List.mem_cons_of_mem x h)
    simp only [List.foldl_cons]
    rw [ih _ rid hrs, armed_setFlag_other m rid x name false hx]

theorem armed_clearAll_mem (name : String) (rs : List Nat) :
    ∀ (m : RequestorMap) (rid : Nat), rid ∈ rs → rs.Nodup →
    armed (rs.foldl (fun acc x => setFlag acc x name false) m) rid name = false := by
  induction rs with
  | nil => intro m rid h _; simp at h
  | cons x rs ih =>
    intro m rid hmem hnd
    simp only [List.nodup_cons] at hnd
    obtain ⟨hx, hnd2⟩ := hnd
    simp only [List.foldl_cons]
    rcases List.mem_cons.mp hmem with h1 | h2
    · subst h1
      rw [armed_clearAll_not_mem name rs _ rid hx,
        armed_setFlag_same m rid name false]
    · exact ih _ rid h2 hnd2

theorem pendingSubscribers_nodup (m : RequestorMap) (name : String)
    (hnd : (m.map Prod.fst).Nodup) : (pendingSubscribers m name).Nodup := by
  unfold pendingSubscribers
  exact hnd.sublist ((List.filter_sublist m).map Prod.fst)

/-! ## Claim C2 -/

/-- A demand table with one subscriber (routing id 0) armed for "cam0". -/
def exampleMapA : RequestorMap := [(0, [("cam0", true)])]

/-- C2 counterexample: the dispatch-cycle lookup is a peek, not a take.
With subscriber 0 armed for "cam0", the lookup returns `[0]`, yet the map is
untouched and subscriber 0 is still armed immediately after the call, where
the claim says its flag was atomically cleared by the same operation. -/
theorem claim_C2_take_counterexample :
    pendingSubscribers exampleMapA "cam0" = [0] ∧
    armed exampleMapA 0 "cam0" = true := by
  constructor
  · rfl
  · rfl

/-- C2 (amended): the dispatch-cycle lookup over `m_requestorMap` returns
exactly the subscribers whose armed flag for the stream is true but does not
clear any flag (peek semantics): each returned subscriber is still armed
immediately after the lookup, and the armed flags are cleared only by the
later per-subscriber assignment after a successful send (which is therefore
essential, not redundant); a failed send instead erases the subscriber's
whole entry. -/
theorem claim_C2_peek_then_clear (m : RequestorMap) (name : String)
    (hnd : (m.map Prod.fst).Nodup) :
    (∀ rid, rid ∈ pendingSubscribers m name ↔ armed m rid name = true) ∧
    (∀ rid ∈ pendingSubscribers m name,
      armed (dispatchSends m name (fun _ => true) (pendingSubscribers m name))
        rid name = false) := by
  constructor
  · intro rid
    exact pending_iff_armed m name rid hnd
  · intro rid hmem
    exact armed_clearAll_mem name (pendingSubscribers m name) m rid hmem
      (pendingSubscribers_nodup m name hnd)

/-- A demand table with subscribers 0 (armed for "cam0"), 1 (not armed) and
2 (armed for a different stream). -/
def exampleMapB : RequestorMap :=
  [(0, [("cam0", true)]), (1, [("cam0", false)]), (2, [("other", true)])]

/-- Witness for the amended C2 at `exampleMapB`. -/
theorem claim_C2_peek_then_clear_witness :
    (exampleMapB.map Prod.fst).Nodup ∧
    (0 ∈ pendingSubscribers exampleMapB "cam0" ↔ armed exampleMapB 0 "cam0" = true) ∧
    armed (dispatchSends exampleMapB "cam0" (fun _ => true)
      (pendingSubscribers exampleMapB "cam0")) 0 "cam0" = false :=
  ⟨by decide,
   (claim_C2_peek_then_clear exampleMapB "cam0" (by decide)).1 0,
   (claim_C2_peek_then_clear exampleMapB "cam0" (by decide)).2 0 (by decide)⟩

/-! ## Publisher Streaming loop

One iteration of the inner `while(!m_timeToDie && !m_restart)` loop of
`milkzmqServer::imageThreadExec` (lines 767-903), with both exit flags false
throughout the iteration.  `double` time values are exact rationals. -/

/-- Loop state carried across iterations: the governor variables
(`lastCheck`, `lastSend`, `delta`), the last-seen counter `lastCnt0`, the
shape captured when the stream was opened (`last_atype`, `last_snx`,
`last_sny`, `last_snz`), and an instrumentation count of `xrif_encode`
invocations. -/
structure PubState where
  lastCheck : ℚ
  lastSend : ℚ
  delta : ℚ
  lastCnt0 : Nat
  lastAtype : Nat
  lastSnx : Nat
  lastSny : Nat
  lastSnz : Nat
  encodeCount : Nat
deriving DecidableEq

/-- What the loop body reads from the environment in one iteration: the
source frame counter `cnt0` at the loop head (line 769) and its re-read
`cnt0R` just before encoding (line 825), the current shape and semaphore
count from the image metadata, and the two `get_curr_time()` samples taken
in whichever branch runs (`now` first, `ct` second). -/
structure FrameInput where
  cnt0 : Nat
  cnt0R : Nat
  atype : Nat
  snx : Nat
  sny : Nat
  snz : Nat
  sem : Int
  now : ℚ
  ct : ℚ
deriving DecidableEq

/-- Whether the iteration falls through to the next iteration (`cont`) or
leaves the inner loop to reopen the stream (`brk`). -/
inductive LoopExit
  | cont
  | brk
deriving DecidableEq

/-- One iteration of the Streaming loop, with the lets of the source body
flattened:

* new frame (`cnt0 != lastCnt0`, line 770): fps admission check
  (lines 773-778: reject and `continue` when
  `currtime - lastCheck < 1.0/m_fpsTgt - delta`, leaving all state
  untouched); on acceptance `lastCheck = currtime` (line 779); collect the
  pending subscribers (lines 781-802); `continue` when none (line 803);
  break on a shape change (lines 808-816); otherwise encode once
  (lines 830-831), send to each pending subscriber (lines 855-879), and run
  the integrator update `delta += m_fpsGain*(ct - lastSend - 1.0/m_fpsTgt);
  lastSend = ct; lastCnt0 = cnt0` (lines 882-887) with the re-read counter.
* no new frame (lines 890-902): break when the semaphore count is
  non-positive; otherwise reset the governor
  (`delta = 0; lastSend = ct - 2*1.0/m_fpsTgt`) exactly when
  `now - lastSend > 2*1.0/m_fpsTgt`. -/
def streamIter (fpsTgt fpsGain : ℚ) (name : String) (ok : Nat → Bool)
    (m : RequestorMap) (inp : FrameInput) (s : PubState) :
    LoopExit × PubState × RequestorMap :=
  if inp.cnt0 ≠ s.lastCnt0 then
    if inp.now - s.lastCheck < 1 / fpsTgt - s.delta then (.cont, s, m)
    else if pendingSubscribers m name = [] then
      (.cont, { s with lastCheck := inp.now }, m)
    else if inp.atype ≠ s.lastAtype ∨ inp.snx ≠ s.lastSnx ∨ inp.sny ≠ s.lastSny ∨
        inp.snz ≠ s.lastSnz then
      (.brk, { s with lastCheck := inp.now }, m)
    else
      (.cont,
       { s with
          lastCheck := inp.now,
          encodeCount := s.encodeCount + 1,
          delta := s.delta + fpsGain * (inp.ct - s.lastSend - 1 / fpsTgt),
          lastSend := inp.ct,
          lastCnt0 := inp.cnt0R },
       dispatchSends m name ok (pendingSubscribers m name))
  else if inp.sem ≤ 0 then (.brk, s, m)
  else if inp.now - s.lastSend > 2 * 1 / fpsTgt then
    (.cont, { s with delta := 0, lastSend := inp.ct - 2 * 1 / fpsTgt }, m)
  else (.cont, s, m)

/-! ## Claim C4 -/

/-- C4: with a new frame pending, the admission check rejects exactly when
`now - lastCheck < 1/fpsTgt - delta` (target interval `1/fpsTgt`, gain
`fpsGain`); a rejection leaves the whole state (in particular `lastCheck`,
`lastSend`, `delta`) unchanged; on acceptance the resulting state has
`lastCheck = now`; and when a dispatch follows (pending subscribers and no
shape change) the integrator update is
`delta += fpsGain * ((ct - lastSend) - 1/fpsTgt)` followed by
`lastSend = ct`.  Universally quantified over the state, so it applies to
every sequence of checks and sends. -/
theorem claim_C4_rate_governor (fpsTgt fpsGain : ℚ) (name : String)
    (ok : Nat → Bool) (m : RequestorMap) (inp : FrameInput) (s : PubState)
    (hnew : inp.cnt0 ≠ s.lastCnt0) :
    (inp.now - s.lastCheck < 1 / fpsTgt - s.delta →
      streamIter fpsTgt fpsGain name ok m inp s = (.cont, s, m)) ∧
    (¬ (inp.now - s.lastCheck < 1 / fpsTgt - s.delta) →
      (streamIter fpsTgt fpsGain name ok m inp s).2.1.lastCheck = inp.now) ∧
    (¬ (inp.now - s.lastCheck < 1 / fpsTgt - s.delta) →
      pendingSubscribers m name ≠ [] →
      ¬ (inp.atype ≠ s.lastAtype ∨ inp.snx ≠ s.lastSnx ∨ inp.sny ≠ s.lastSny ∨
          inp.snz ≠ s.lastSnz) →
      (streamIter fpsTgt fpsGain name ok m inp s).2.1.delta =
          s.delta + fpsGain * ((inp.ct - s.lastSend) - 1 / fpsTgt) ∧
        (streamIter fpsTgt fpsGain name ok m inp s).2.1.lastSend = inp.ct) := by
  refine ⟨?_, ?_, ?_⟩
  · intro hrej
    unfold streamIter
    rw [if_pos hnew, if_pos hrej]
  · intro hacc
    unfold streamIter
    rw [if_pos hnew, if_neg hacc]
    by_cases hr : pendingSubscribers m name = []
    · rw [if_pos hr]
    · rw [if_neg hr]
      by_cases hs : inp.atype ≠ s.lastAtype ∨ inp.snx ≠ s.lastSnx ∨
          inp.sny ≠ s.lastSny ∨ inp.snz ≠ s.lastSnz
      · rw [if_pos hs]
      · rw [if_neg hs]
  · intro hacc hr hs
    unfold streamIter
    rw [if_pos hnew, if_neg hacc, if_neg hr, if_neg hs]
    exact ⟨rfl, rfl⟩

/-- Witness for C4 at concrete values (fpsTgt 1, state zeroed, new frame
counter 1 at time 5). -/
theorem claim_C4_rate_governor_witness :
    ((⟨1, 1, 2, 8, 8, 0, 3, 5, 6⟩ : FrameInput).cnt0 ≠
      (⟨0, 0, 0, 0, 2, 8, 8, 0, 0⟩ : PubState).lastCnt0) ∧
    (¬ ((5 : ℚ) - 0 < 1 / 1 - 0) →
      (streamIter 1 1 "cam0" (fun _ => true) exampleMapA
        ⟨1, 1, 2, 8, 8, 0, 3, 5, 6⟩ ⟨0, 0, 0, 0, 2, 8, 8, 0, 0⟩).2.1.lastCheck = 5) :=
  ⟨by decide,
   fun h =>
    (claim_C4_rate_governor 1 1 "cam0" (fun _ => true) exampleMapA
      ⟨1, 1, 2, 8, 8, 0, 3, 5, 6⟩ ⟨0, 0, 0, 0, 2, 8, 8, 0, 0⟩ (by decide)).2.1 h⟩

/-! ## Claim C3 -/

/-- Publisher state before the C3 counterexample iteration: last-seen
counter 0, governor zeroed, shape 8 by 8 uint8 flat. -/
def c3State : PubState := ⟨0, 0, 0, 0, 2, 8, 8, 0, 0⟩

/-- Iteration input for the C3 counterexample: new frame counter 1,
unchanged shape, valid semaphore, times 5 and 6. -/
def c3Input : FrameInput := ⟨1, 1, 2, 8, 8, 0, 3, 5, 6⟩

/-- Evaluation of the C3 counterexample iteration: the new-frame branch is
taken, the admission check passes, the subscriber list is empty, so only
`lastCheck` changes. -/
theorem c3_eval : streamIter 1 1 "cam0" (fun _ => true) [] c3Input c3State =
    (.cont, { c3State with lastCheck := 5 }, []) := by
  unfold streamIter
  rw [if_pos (show c3Input.cnt0 ≠ c3State.lastCnt0 by decide),
    if_neg (show ¬ (c3Input.now - c3State.lastCheck < 1 / 1 - c3State.delta) by
      show ¬ ((5 : ℚ) - 0 < 1 / 1 - 0)
      norm_num),
    if_pos (show pendingSubscribers [] "cam0" = [] from rfl)]
  rfl

/-- C3 counterexample: a Streaming iteration with a new frame, a passing
admission check and no armed subscribers performs no encode (as claimed) but
does NOT update the last-seen frame counter: it stays at its old value 0
instead of the current counter 1, so the same frame is seen as new again on
the next iteration — the claim's "still updates its last-seen frame counter"
is false. -/
theorem claim_C3_skip_counterexample :
    c3Input.cnt0 ≠ c3State.lastCnt0 ∧
    ¬ (c3Input.now - c3State.lastCheck < 1 / 1 - c3State.delta) ∧
    pendingSubscribers [] "cam0" = [] ∧
    (streamIter 1 1 "cam0" (fun _ => true) [] c3Input c3State).2.1.encodeCount =
      c3State.encodeCount ∧
    (streamIter 1 1 "cam0" (fun _ => true) [] c3Input c3State).2.1.lastCnt0 ≠
      c3Input.cnt0 := by
  refine ⟨by decide, ?_, rfl, ?_, ?_⟩
  · show ¬ ((5 : ℚ) - 0 < 1 / 1 - 0)
    norm_num
  · rw [c3_eval]
  · rw [c3_eval]
    decide

/-- C3 (amended): in a Streaming iteration where the source frame counter
differs from the last-seen counter, the admission check passes and the set
of armed subscribers is empty, the publisher performs zero encode
invocations and leaves the last-seen frame counter UNCHANGED (only
`lastCheck` is updated), so the frame stays eligible and is examined again
on later iterations rather than being marked seen. -/
theorem claim_C3_skip_no_subscribers (fpsTgt fpsGain : ℚ) (name : String)
    (ok : Nat → Bool) (m : RequestorMap) (inp : FrameInput) (s : PubState)
    (hnew : inp.cnt0 ≠ s.lastCnt0)
    (hacc : ¬ (inp.now - s.lastCheck < 1 / fpsTgt - s.delta))
    (hempty : pendingSubscribers m name = []) :
    streamIter fpsTgt fpsGain name ok m inp s =
      (.cont, { s with lastCheck := inp.now }, m) ∧
    (streamIter fpsTgt fpsGain name ok m inp s).2.1.encodeCount = s.encodeCount ∧
    (streamIter fpsTgt fpsGain name ok m inp s).2.1.lastCnt0 = s.lastCnt0 := by
  have he : streamIter fpsTgt fpsGain name ok m inp s =
      (.cont, { s with lastCheck := inp.now }, m) := by
    unfold streamIter
    rw [if_pos hnew, if_neg hacc, if_pos hempty]
  refine ⟨he, ?_, ?_⟩
  · rw [he]
  · rw [he]

/-- Witness for the amended C3 at the `c3Input`/`c3State` iteration. -/
theorem claim_C3_skip_no_subscribers_witness :
    (c3Input.cnt0 ≠ c3State.lastCnt0 ∧
     ¬ (c3Input.now - c3State.lastCheck < 1 / 1 - c3State.delta) ∧
     pendingSubscribers [] "cam0" = []) ∧
    streamIter 1 1 "cam0" (fun _ => true) [] c3Input c3State =
      (.cont, { c3State with lastCheck := c3Input.now }, []) :=
  ⟨⟨by decide,
    by
      show ¬ ((5 : ℚ) - 0 < 1 / 1 - 0)
      norm_num,
    rfl⟩,
   (claim_C3_skip_no_subscribers 1 1 "cam0" (fun _ => true) [] c3Input c3State
     (by decide)
     (by
       show ¬ ((5 : ℚ) - 0 < 1 / 1 - 0)
       norm_num)
     rfl).1⟩

/-! ## Claim C5 -/

/-- Publisher state for the C5 counterexample: frame counter 0, `delta` 7,
`lastSend` 0 (far in the past). -/
def c5State : PubState := ⟨0, 0, 7, 0, 2, 8, 8, 0, 0⟩

/-- Iteration input for the C5 counterexample: NEW frame (counter 1) at time
10, long after `lastSend`. -/
def c5Input : FrameInput := ⟨1, 1, 2, 8, 8, 0, 3, 10, 10⟩

/-- Evaluation of the C5 counterexample iteration: a new frame is pending,
the admission check passes (`delta` 7 makes the threshold negative), the
subscriber list is empty, so only `lastCheck` changes — no governor reset. -/
theorem c5_eval : streamIter 1 1 "cam0" (fun _ => true) [] c5Input c5State =
    (.cont, { c5State with lastCheck := 10 }, []) := by
  unfold streamIter
  rw [if_pos (show c5Input.cnt0 ≠ c5State.lastCnt0 by decide),
    if_neg (show ¬ (c5Input.now - c5State.lastCheck < 1 / 1 - c5State.delta) by
      show ¬ ((10 : ℚ) - 0 < 1 / 1 - 7)
      norm_num),
    if_pos (show pendingSubscribers [] "cam0" = [] from rfl)]
  rfl

/-- C5 counterexample: with no subscriber armed (empty demand table) and
`now - lastSend = 10 > 2*targetInterval = 2`, the claim requires the
governor reset `delta = 0, lastSend = now - 2*targetInterval`; but because a
new frame is pending the iteration runs the new-frame branch, skips on the
empty subscriber list and leaves `delta = 7` and `lastSend = 0` — the reset
is keyed to "no new frame", not to "no eligible subscribers". -/
theorem claim_C5_stall_counterexample :
    pendingSubscribers [] "cam0" = [] ∧
    c5Input.now - c5State.lastSend > 2 * 1 / 1 ∧
    (streamIter 1 1 "cam0" (fun _ => true) [] c5Input c5State).2.1.delta ≠ 0 ∧
    (streamIter 1 1 "cam0" (fun _ => true) [] c5Input c5State).2.1.lastSend ≠
      c5Input.now - 2 * 1 / 1 := by
  refine ⟨rfl, ?_, ?_, ?_⟩
  · show (10 : ℚ) - 0 > 2 * 1 / 1
    norm_num
  · rw [c5_eval]
    show (7 : ℚ) ≠ 0
    norm_num
  · rw [c5_eval]
    show (0 : ℚ) ≠ 10 - 2 * 1 / 1
    norm_num

/-- C5 (amended): the stall-recovery reset `delta = 0,
lastSend = ct - 2*(1/fpsTgt)` runs exactly in the no-new-frame branch: when
the source frame counter equals the last-seen counter, the semaphore is
still valid and `now - lastSend > 2*(1/fpsTgt)`; it is conditioned on the
source having produced no new frame (publisher idle at the source), not on
subscriber eligibility.  When the threshold is not exceeded the state is
unchanged. -/
theorem claim_C5_stall_reset (fpsTgt fpsGain : ℚ) (name : String)
    (ok : Nat → Bool) (m : RequestorMap) (inp : FrameInput) (s : PubState)
    (hsame : inp.cnt0 = s.lastCnt0) (hsem : ¬ (inp.sem ≤ 0)) :
    (inp.now - s.lastSend > 2 * 1 / fpsTgt →
      streamIter fpsTgt fpsGain name ok m inp s =
        (.cont, { s with delta := 0, lastSend := inp.ct - 2 * 1 / fpsTgt }, m)) ∧
    (¬ (inp.now - s.lastSend > 2 * 1 / fpsTgt) →
      streamIter fpsTgt fpsGain name ok m inp s = (.cont, s, m)) := by
  constructor
  · intro hstall
    unfold streamIter
    rw [if_neg (not_not_intro hsame), if_neg hsem, if_pos hstall]
  · intro hq
    unfold streamIter
    rw [if_neg (not_not_intro hsame), if_neg hsem, if_neg hq]

/-- Witness for the amended C5: stalled source (counter unchanged at 0),
valid semaphore, `now - lastSend = 10 > 2`. -/
theorem claim_C5_stall_reset_witness :
    ((⟨0, 0, 2, 8, 8, 0, 3, 10, 10⟩ : FrameInput).cnt0 = c5State.lastCnt0 ∧
     ¬ ((⟨0, 0, 2, 8, 8, 0, 3, 10, 10⟩ : FrameInput).sem ≤ 0) ∧
     (⟨0, 0, 2, 8, 8, 0, 3, 10, 10⟩ : FrameInput).now - c5State.lastSend > 2 * 1 / 1) ∧
    streamIter 1 1 "cam0" (fun _ => true) [] ⟨0, 0, 2, 8, 8, 0, 3, 10, 10⟩ c5State =
      (.cont, { c5State with delta := 0, lastSend := (10 : ℚ) - 2 * 1 / 1 }, []) :=
  ⟨⟨by decide, by decide,
    by
      show (10 : ℚ) - 0 > 2 * 1 / 1
      norm_num⟩,
   (claim_C5_stall_reset 1 1 "cam0" (fun _ => true) [] ⟨0, 0, 2, 8, 8, 0, 3, 10, 10⟩
     c5State (by decide) (by decide)).1
     (by
       show (10 : ℚ) - 0 > 2 * 1 / 1
       norm_num)⟩

/-! ## Subscriber engine

The inner receive loop of `milkzmqClient::imageThreadExec` (lines 428-582)
and its frame processing (lines 501-555).  The local ImageStreamIO sink is
modelled at descriptor level; the `memcpy` of decoded pixels into slice
`curr_image` is recorded as a write count and the slot index written. -/

/-- Descriptor-level model of the local ImageStreamIO sink created by
`ImageStreamIO_createIm(&image, shMemImName, 2, imsize, new_atype, 1, 0, 0)`. -/
structure LocalSink where
  naxis : Nat
  size0 : Nat
  size1 : Nat
  size2 : Nat
  datatype : Nat
  cnt0 : Nat
  tvSec : Nat
  tvNsec : Nat
  cnt1 : Nat
deriving DecidableEq

/-- Client-side image state: whether a sink exists (`opened`), the sink, the
held shape variables `atype`/`nx`/`ny`, and instrumentation for the pixel
`memcpy` (count and target slot). -/
structure ClientImgState where
  opened : Bool
  sink : LocalSink
  atype : Nat
  nx : Nat
  ny : Nat
  pixelWrites : Nat
  lastWriteSlot : Nat
deriving DecidableEq

/-- Frame processing (`milkzmqClient::imageThreadExec` lines 501-555): read
`new_atype`/`new_nx`/`new_ny` from the header; when any differs from the
held values, destroy the old sink and create a new one with
`imsize = [new_nx, new_ny, 0]` and `naxis = 2`; then write the carried
counter and timestamps, copy the decoded pixels into slot
`curr_image = 0` ("This is not a rolling buffer"), and set `cnt1 = 0`. -/
def processFrame (st : ClientImgState) (buf : List Nat) : ClientImgState :=
  let newAtype := buf.getD typeOffset 0
  let newNx := readLE buf size0Offset 4
  let newNy := readLE buf size1Offset 4
  let rebuild := st.nx ≠ newNx ∨ st.ny ≠ newNy ∨ st.atype ≠ newAtype
  let sink1 := if rebuild then
      ({ naxis := 2, size0 := newNx, size1 := newNy, size2 := 0, datatype := newAtype,
         cnt0 := 0, tvSec := 0, tvNsec := 0, cnt1 := 0 } : LocalSink)
    else st.sink
  { opened := if rebuild then true else st.opened,
    sink := { sink1 with
      cnt0 := readLE buf cnt0Offset 8,
      tvSec := readLE buf tv_secOffset 8,
      tvNsec := readLE buf tv_nsecOffset 8,
      cnt1 := 0 },
    atype := newAtype,
    nx := newNx,
    ny := newNy,
    pixelWrites := st.pixelWrites + 1,
    lastWriteSlot := 0 }

/-- Outcome of the blocking `subscriber.recv` with its 1000 ms timeout:
timed out with no data (`EAGAIN`), failed otherwise, or delivered a
message. -/
inductive RecvResult
  | timeout
  | hardFail
  | message (buf : List Nat)

/-- Inner-loop state: the `first`/`connected` reporting flags, the
`reconnect` flag whose setting exits the inner loop (close the socket,
tear down and retry from the outer loop), the image state, and a count of
requests sent. -/
structure ClientLoopState where
  first : Bool
  connected : Bool
  reconnect : Bool
  img : ClientImgState
  requestsSent : Nat
deriving DecidableEq

/-- One iteration of the inner receive loop (lines 428-582): on timeout
re-send the request and continue; on another receive failure mark
disconnected and leave the loop; on a message, report the connection if
first, then — `if(msg.size() <= headerSize)` — sleep and set `reconnect`
(writing nothing into the sink), else process the frame and immediately
send the next request. -/
def innerStep (st : ClientLoopState) (r : RecvResult) : ClientLoopState :=
  match r with
  | .timeout => { st with requestsSent := st.requestsSent + 1 }
  | .hardFail => { st with connected := false, reconnect := true }
  | .message buf =>
    let st1 := if st.first then { st with connected := true, first := false } else st
    if buf.length ≤ headerSize then
      { st1 with reconnect := true }
    else
      { st1 with
        img := processFrame st1.img buf,
        requestsSent := st1.requestsSent + 1 }

/-! ## Claim C6 -/

/-- A connected client loop state (sink 8 by 8, datatype 2). -/
def c6State : ClientLoopState :=
  ⟨false, true, false, ⟨true, ⟨2, 8, 8, 0, 2, 0, 0, 0, 0⟩, 2, 8, 8, 3, 0⟩, 3⟩

set_option maxRecDepth 8192 in
/-- C6 counterexample: a message of length exactly 256 — not smaller than
the fixed header size — is nonetheless treated as a disconnect (the code
checks `msg.size() <= headerSize`, not `<`): the subscriber sets
`reconnect` and writes nothing, where the claim says any message whose
length is not smaller than the header size is processed as a frame. -/
theorem claim_C6_sentinel_counterexample :
    (List.replicate 256 0).length = headerSize ∧
    ¬ ((List.replicate 256 0).length < headerSize) ∧
    (innerStep c6State (.message (List.replicate 256 0))).reconnect = true ∧
    (innerStep c6State (.message (List.replicate 256 0))).img = c6State.img := by
  refine ⟨by decide, by decide, by decide, by decide⟩

/-- C6 (amended): the frame/sentinel distinction is made solely by comparing
the message length to the fixed header size, with the sentinel side
including equality: a message of length at most 256 (which covers the
1-byte HangupSentinel) causes no write to the local sink and sets the
`reconnect` flag (close, pause, retry from Disconnected), while only a
message of length strictly greater than 256 is processed as a frame (one
pixel write and the next request sent). -/
theorem claim_C6_undersized_disconnect (st : ClientLoopState) (buf : List Nat) :
    (buf.length ≤ headerSize →
      (innerStep st (.message buf)).reconnect = true ∧
      (innerStep st (.message buf)).img = st.img ∧
      (innerStep st (.message buf)).img.pixelWrites = st.img.pixelWrites) ∧
    (headerSize < buf.length →
      (innerStep st (.message buf)).reconnect = st.reconnect ∧
      (innerStep st (.message buf)).img = processFrame st.img buf ∧
      (innerStep st (.message buf)).img.pixelWrites = st.img.pixelWrites + 1 ∧
      (innerStep st (.message buf)).requestsSent = st.requestsSent + 1) := by
  constructor
  · intro hle
    simp only [innerStep]
    rw [if_pos hle]
    by_cases hf : st.first
    · rw [if_pos hf]
      simp
    · rw [if_neg hf]
      simp
  · intro hgt
    simp only [innerStep]
    rw [if_neg (not_le.mpr hgt)]
    by_cases hf : st.first
    · rw [if_pos hf]
      simp [processFrame]
    · rw [if_neg hf]
      simp [processFrame]

set_option maxRecDepth 8192 in
/-- Witness for the amended C6: a 10-byte message (covers the sentinel) and
a 300-byte message (a real frame). -/
theorem claim_C6_undersized_disconnect_witness :
    ((List.replicate 10 0).length ≤ headerSize ∧
     (innerStep c6State (.message (List.replicate 10 0))).reconnect = true) ∧
    (headerSize < (List.replicate 300 7).length ∧
     (innerStep c6State (.message (List.replicate 300 7))).img.pixelWrites =
       c6State.img.pixelWrites + 1) :=
  ⟨⟨by decide,
    ((claim_C6_undersized_disconnect c6State (List.replicate 10 0)).1 (by decide)).1⟩,
   ⟨by decide,
    ((claim_C6_undersized_disconnect c6State (List.replicate 300 7)).2 (by decide)).2.2.1⟩⟩

/-! ## Claim C9 -/

/-- C9: the local sink is always a two-dimensional single-slot buffer
(`naxis = 2`, third dimension 0) regardless of the remote slice count (which
is not even carried in the header); every received frame is written to slot
0 and leaves `cnt1 = 0`; and this is preserved across every shape-change
teardown/rebuild.  The invariant hypothesis (`hinv`) states the property for
the incoming sink, `hinit` that the held width starts at 0 while no sink
exists, and `hbuf` that the frame carries a nonzero width (a frame from a
real source). -/
theorem claim_C9_sink_single_slot (st : ClientImgState) (buf : List Nat)
    (hinv : st.opened = true → st.sink.naxis = 2 ∧ st.sink.size2 = 0)
    (hinit : st.opened = false → st.nx = 0)
    (hbuf : readLE buf size0Offset 4 ≠ 0) :
    (processFrame st buf).sink.naxis = 2 ∧
    (processFrame st buf).sink.size2 = 0 ∧
    (processFrame st buf).sink.cnt1 = 0 ∧
    (processFrame st buf).lastWriteSlot = 0 ∧
    (processFrame st buf).opened = true := by
  by_cases hreb : st.nx ≠ readLE buf size0Offset 4 ∨ st.ny ≠ readLE buf size1Offset 4 ∨
      st.atype ≠ buf.getD typeOffset 0
  · simp only [processFrame]
    rw [if_pos hreb, if_pos hreb]
    simp
  · push_neg at hreb
    obtain ⟨h1, h2, h3⟩ := hreb
    have hop : st.opened = true := by
      cases hsto : st.opened
      · exact absurd (h1 ▸ hinit hsto) hbuf
      · rfl
    obtain ⟨hax, hsz⟩ := hinv hop
    have hreb2 : ¬ (st.nx ≠ readLE buf size0Offset 4 ∨ st.ny ≠ readLE buf size1Offset 4 ∨
        st.atype ≠ buf.getD typeOffset 0) := by
      push_neg
      exact ⟨h1, h2, h3⟩
    simp only [processFrame]
    rw [if_neg hreb2, if_neg hreb2]
    simp [hax, hsz, hop]

/-- A client image state holding an 8 by 8 two-dimensional sink. -/
def c9State : ClientImgState := ⟨true, ⟨2, 8, 8, 0, 2, 5, 6, 7, 0⟩, 2, 8, 8, 1, 0⟩

set_option maxRecDepth 8192 in
/-- Witness for C9 at `c9State` with a 300-byte frame of sevens. -/
theorem claim_C9_sink_single_slot_witness :
    ((c9State.opened = true → c9State.sink.naxis = 2 ∧ c9State.sink.size2 = 0) ∧
     (c9State.opened = false → c9State.nx = 0) ∧
     readLE (List.replicate 300 7) size0Offset 4 ≠ 0) ∧
    (processFrame c9State (List.replicate 300 7)).sink.naxis = 2 ∧
    (processFrame c9State (List.replicate 300 7)).sink.cnt1 = 0 :=
  ⟨⟨by decide, by decide, by decide⟩,
   (claim_C9_sink_single_slot c9State (List.replicate 300 7) (by decide) (by decide)
     (by decide)).1,
   (claim_C9_sink_single_slot c9State (List.replicate 300 7) (by decide) (by decide)
     (by decide)).2.2.1⟩

/-! ## Pull protocol (one subscriber, one stream)

A labelled transition system for the request/response discipline between one
subscriber thread (`milkzmqClient::imageThreadExec`) and the publisher's
dispatch for one stream.  The subscriber sends a request at exactly three
points of the source: at connection start (line 413), immediately after
processing a received frame (line 577), and after a receive timeout
(line 461); the publisher sends one frame per armed flag and clears the flag
on send.  Environment assumptions of the model, stated here because they
abstract the transport: a receive timeout fires only when no frame is in
transit (a frame already sent is delivered within the 1000 ms receive
timeout), and closing the socket on reconnect abandons the old routing id,
so the fresh connection starts with no demand and nothing in flight. -/

/-- Subscriber position: in the outer loop before connecting (`start`) or in
the inner receive loop (`waiting`). -/
inductive SubPhase
  | start
  | waiting
deriving DecidableEq

/-- Joint state of one (subscriber, stream) pair: the subscriber phase, the
publisher's armed demand flag for this pair, and the number of frames sent
to this subscriber and not yet received. -/
structure ProtoState where
  phase : SubPhase
  armed : Bool
  inflight : Nat
deriving DecidableEq

/-- Transitions of the pull protocol:
`connect` sends the initial request; `dispatch` is the publisher consuming
the armed flag and sending one frame; `deliver` is the subscriber processing
a received frame and immediately re-requesting; `timeoutResend` re-sends the
request after a timeout with nothing in transit; `reconnect` closes the
socket and returns to the outer loop with a fresh identity. -/
inductive ProtoStep : ProtoState → ProtoState → Prop
  | connect (a : Bool) (f : Nat) :
      ProtoStep ⟨.start, a, f⟩ ⟨.waiting, true, f⟩
  | dispatch (p : SubPhase) (f : Nat) :
      ProtoStep ⟨p, true, f⟩ ⟨p, false, f + 1⟩
  | deliver (a : Bool) (f : Nat) :
      ProtoStep ⟨.waiting, a, f + 1⟩ ⟨.waiting, true, f⟩
  | timeoutResend (a : Bool) :
      ProtoStep ⟨.waiting, a, 0⟩ ⟨.waiting, true, 0⟩
  | reconnect (a : Bool) (f : Nat) :
      ProtoStep ⟨.waiting, a, f⟩ ⟨.start, false, 0⟩

/-- The initial state: not yet connected, no demand, nothing in flight. -/
def protoInit : ProtoState := ⟨.start, false, 0⟩

/-- States reachable from `protoInit` by protocol steps. -/
def ProtoReachable (s : ProtoState) : Prop :=
  Relation.ReflTransGen ProtoStep protoInit s

/-- The protocol invariant: before connecting nothing is armed or in flight,
at most one frame is in flight, and while a request is armed no frame is in
flight. -/
@[reducible]
def ProtoInv (s : ProtoState) : Prop :=
  (s.phase = .start → s.armed = false ∧ s.inflight = 0) ∧
  s.inflight ≤ 1 ∧
  (s.armed = true → s.inflight = 0)

theorem protoStep_inv {s t : ProtoState} (hst : ProtoStep s t) (hI : ProtoInv s) :
    ProtoInv t := by
  obtain ⟨hstart, hcap, harm⟩ := hI
  cases hst with
  | connect a f =>
    obtain ⟨ha, hf⟩ := hstart rfl
    have hf2 : f = 0 := hf
    subst hf2
    refine ⟨?_, ?_, ?_⟩
    · intro h
      exact nomatch h
    · exact Nat.zero_le 1
    · intro _
      rfl
  | dispatch p f =>
    have hf : f = 0 := harm rfl
    subst hf
    refine ⟨?_, ?_, ?_⟩
    · intro hp
      obtain ⟨hc, _⟩ := hstart hp
      exact nomatch hc
    · show (0 + 1 : Nat) ≤ 1
      omega
    · intro h
      exact nomatch h
  | deliver a f =>
    have hcap2 : f + 1 ≤ 1 := hcap
    have hf : f = 0 := by omega
    subst hf
    refine ⟨?_, ?_, ?_⟩
    · intro h
      exact nomatch h
    · exact Nat.zero_le 1
    · intro _
      rfl
  | timeoutResend a =>
    refine ⟨?_, ?_, ?_⟩
    · intro h
      exact nomatch h
    · exact Nat.zero_le 1
    · intro _
      rfl
  | reconnect a f =>
    refine ⟨?_, ?_, ?_⟩
    · intro _
      exact ⟨rfl, rfl⟩
    · exact Nat.zero_le 1
    · intro _
      rfl

theorem protoReachable_inv {s : ProtoState} (h : ProtoReachable s) : ProtoInv s := by
  induction h with
  | refl =>
    refine ⟨?_, ?_, ?_⟩
    · intro _
      exact ⟨rfl, rfl⟩
    · exact Nat.zero_le 1
    · intro _
      rfl
  | tail hab hbc ih => exact protoStep_inv hbc ih

/-- C8: in every reachable state of the pull protocol, at most one request
or frame is outstanding per (subscriber, stream) pair: at most one frame is
in flight, and while the subscriber's request is armed at the publisher no
frame is in flight — requests are sent only at connection start, after
processing a received frame, or after a receive timeout (the only `send`
sites of the subscriber loop, reflected in the transition relation). -/
theorem claim_C8_single_outstanding (s : ProtoState) (h : ProtoReachable s) :
    s.inflight ≤ 1 ∧ (s.armed = true → s.inflight = 0) ∧
    s.inflight + (if s.armed then 1 else 0) ≤ 1 := by
  obtain ⟨_, hcap, harm⟩ := protoReachable_inv h
  refine ⟨hcap, harm, ?_⟩
  cases ha : s.armed
  · rw [if_neg (by decide : ¬ (false = true))]
    omega
  · rw [if_pos (rfl : true = true)]
    have h0 := harm ha
    omega

/-- Witness for C8 at the reachable state reached by connecting and then
one publisher dispatch (one frame in flight, demand cleared). -/
theorem claim_C8_single_outstanding_witness :
    ProtoReachable ⟨.waiting, false, 1⟩ ∧
    ((⟨.waiting, false, 1⟩ : ProtoState).inflight ≤ 1 ∧
     ((⟨.waiting, false, 1⟩ : ProtoState).armed = true →
       (⟨.waiting, false, 1⟩ : ProtoState).inflight = 0) ∧
     (⟨.waiting, false, 1⟩ : ProtoState).inflight +
       (if (⟨.waiting, false, 1⟩ : ProtoState).armed then 1 else 0) ≤ 1) := by
  have hreach : ProtoReachable ⟨.waiting, false, 1⟩ :=
    Relation.ReflTransGen.tail
      (Relation.ReflTransGen.tail Relation.ReflTransGen.refl (ProtoStep.connect false 0))
      (ProtoStep.dispatch .waiting 0)
  exact ⟨hreach, claim_C8_single_outstanding _ hreach⟩
